import Mathlib

/-!
Verification development for the yoto-uploader repository.

The repository automates uploading audio files to a web playlist editor:
it scans a folder for audio files, partitions them into batches, drives a
browser session (login, upload, wait for server-side processing), recovers
the created playlist identifier from an intercepted API response, and
optionally assigns random icons to tracks.

This file gives a shallow embedding of the pure data manipulation and of
the control flow of the two source variants
(src/yoto_uploader/files.py, auth.py, workflow.py and the legacy script
src/yoto_uploader.py), and proves the documented properties about the
embedding.  Filesystem access, the browser page and network responses are
modelled as explicit inputs; Python strings are modelled through their
character lists so that all definitions compute inside the kernel.
-/

/-! ## String primitives

Python level string operations used by the sources, modelled on character
lists.  Python string comparison is lexicographic on code points;
str.lower maps each character to lowercase; str.strip removes leading and
trailing whitespace.
-/

/-- Lexicographic comparison of character lists, the ordering Python uses
when sorting strings (compare code points position by position; a strict
prefix is smaller). -/
def strLe : List Char → List Char → Bool
  | [], _ => true
  | _ :: _, [] => false
  | x :: xs, y :: ys => if x = y then strLe xs ys else decide (x < y)

/-- Model of the Python str.lower used in files.py line 27
(f.suffix.lower()): lowercase every character. -/
def lowerStr (s : String) : String := ⟨s.data.map Char.toLower⟩

/-- Model of the Python str.strip used in workflow.py line 78
(title.strip(), playlist_name.strip()): drop whitespace from both ends. -/
def trimStr (s : String) : String :=
  ⟨((s.data.dropWhile Char.isWhitespace).reverse.dropWhile Char.isWhitespace).reverse⟩

/-- Model of pathlib suffix: the extension of a file name, that is the
part from the last dot on, provided that dot is neither the first nor the
last character of the name; empty otherwise.  This is the pathlib
implementation (name.rfind applied to a dot, then the guard
0 < i < len(name) - 1). -/
def pathSuffix (name : String) : String :=
  let cs := name.data
  match cs.reverse.findIdx? (· == '.') with
  | none => ""
  | some j =>
      let i := cs.length - 1 - j
      if 0 < i ∧ i + 1 < cs.length then ⟨cs.drop i⟩ else ""

/-! ## File Selector (src/yoto_uploader/files.py)

chunk_list (lines 33-37) materialises its input and yields the slices
data_list[i : i + size] for i in range(0, len(data_list), size).
We model range(start, stop, step) for positive step by its closed form:
the indices start + k * step for k < ceil((stop - start) / step).
Python raises ValueError on step = 0; the claims only concern positive
sizes, so the embedding returns the empty list there.
-/

/-- Model of Python range(start, stop, step) for a positive step. -/
def rangeStep (start stop step : Nat) : List Nat :=
  if step = 0 then []
  else (List.range ((stop - start + step - 1) / step)).map (fun k => start + k * step)

/-- files.py lines 33-37: yield successive size-sized slices of data. -/
def chunk_list {α : Type} (data : List α) (size : Nat) : List (List α) :=
  (rangeStep 0 data.length size).map (fun i => (data.drop i).take size)

theorem rangeStep_stop_le (start stop step : Nat) (h : stop ≤ start) :
    rangeStep start stop step = [] := by
  unfold rangeStep
  by_cases hs : step = 0
  · simp [hs]
  · have h0 : 0 < step := Nat.pos_of_ne_zero hs
    have : (stop - start + step - 1) / step = 0 := by
      apply Nat.div_eq_of_lt
      omega
    simp [hs, this]

theorem chunk_list_nil {α : Type} (size : Nat) : chunk_list ([] : List α) size = [] := by
  unfold chunk_list
  rw [rangeStep_stop_le]
  · rfl
  · simp

theorem rangeStep_zero_cons (n step : Nat) (hs : 0 < step) (hn : 0 < n) :
    rangeStep 0 n step = 0 :: (rangeStep 0 (n - step) step).map (· + step) := by
  unfold rangeStep
  have hstep : ¬ step = 0 := Nat.pos_iff_ne_zero.mp hs
  simp only [hstep, if_false]
  have harg : n - 0 + step - 1 = (n - 1) + step := by omega
  rw [harg, Nat.add_div_right _ hs, List.range_succ_eq_map]
  simp only [List.map_cons, List.map_map]
  congr 1
  · simp
  · by_cases hcase : n ≤ step
    · have h1 : (n - 1) / step = 0 := Nat.div_eq_of_lt (by omega)
      have h2 : (n - step - 0 + step - 1) / step = 0 := Nat.div_eq_of_lt (by omega)
      rw [h1, h2]
      rfl
    · have hc : n - step - 0 + step - 1 = (n - 1 - step) + step := by omega
      rw [hc, Nat.add_div_right _ hs]
      have hc2 : (n - 1) / step = (n - 1 - step) / step + 1 := by
        conv_lhs => rw [show n - 1 = (n - 1 - step) + step by omega]
        rw [Nat.add_div_right _ hs]
      rw [hc2]
      apply List.map_congr_left
      intro k _
      simp [Function.comp, Nat.succ_mul, Nat.add_comm]

theorem chunk_list_cons {α : Type} (size : Nat) (hs : 0 < size) (data : List α)
    (hd : data ≠ []) :
    chunk_list data size = data.take size :: chunk_list (data.drop size) size := by
  unfold chunk_list
  have hn : 0 < data.length := List.length_pos.mpr hd
  rw [rangeStep_zero_cons data.length size hs hn, List.length_drop]
  simp only [List.map_cons, List.drop_zero, List.map_map]
  congr 1
  apply List.map_congr_left
  intro i _
  simp [Function.comp, List.drop_drop, Nat.add_comm]

theorem chunk_list_flatten_fuel {α : Type} (size : Nat) (hs : 0 < size) :
    ∀ (fuel : Nat) (data : List α), data.length ≤ fuel →
      (chunk_list data size).flatten = data := by
  intro fuel
  induction fuel with
  | zero =>
    intro data h
    have : data = [] := List.eq_nil_of_length_eq_zero (Nat.le_zero.mp h)
    subst this
    rw [chunk_list_nil]
    rfl
  | succ fuel ih =>
    intro data h
    by_cases hd : data = []
    · subst hd
      rw [chunk_list_nil]
      rfl
    · rw [chunk_list_cons size hs data hd, List.flatten_cons,
        ih (data.drop size) (by rw [List.length_drop]; omega)]
      exact List.take_append_drop size data

theorem chunk_list_length_le_fuel {α : Type} (size : Nat) (hs : 0 < size) :
    ∀ (fuel : Nat) (data : List α), data.length ≤ fuel →
      ∀ c ∈ chunk_list data size, c.length ≤ size := by
  intro fuel
  induction fuel with
  | zero =>
    intro data h
    have : data = [] := List.eq_nil_of_length_eq_zero (Nat.le_zero.mp h)
    subst this
    rw [chunk_list_nil]
    intro c hc
    exact absurd hc (List.not_mem_nil c)
  | succ fuel ih =>
    intro data h
    by_cases hd : data = []
    · subst hd
      rw [chunk_list_nil]
      intro c hc
      exact absurd hc (List.not_mem_nil c)
    · rw [chunk_list_cons size hs data hd]
      intro c hc
      rcases List.mem_cons.mp hc with hc | hc
      · subst hc
        rw [List.length_take]
        exact min_le_left _ _
      · exact ih (data.drop size) (by rw [List.length_drop]; omega) c hc

theorem chunk_list_ne_nil {α : Type} (size : Nat) (hs : 0 < size) (data : List α)
    (hd : data ≠ []) : chunk_list data size ≠ [] := by
  rw [chunk_list_cons size hs data hd]
  exact List.cons_ne_nil _ _

theorem chunk_list_dropLast_fuel {α : Type} (size : Nat) (hs : 0 < size) :
    ∀ (fuel : Nat) (data : List α), data.length ≤ fuel →
      ∀ c ∈ (chunk_list data size).dropLast, c.length = size := by
  intro fuel
  induction fuel with
  | zero =>
    intro data h
    have : data = [] := List.eq_nil_of_length_eq_zero (Nat.le_zero.mp h)
    subst this
    rw [chunk_list_nil]
    intro c hc
    exact absurd hc (List.not_mem_nil c)
  | succ fuel ih =>
    intro data h
    by_cases hd : data = []
    · subst hd
      rw [chunk_list_nil]
      intro c hc
      exact absurd hc (List.not_mem_nil c)
    · rw [chunk_list_cons size hs data hd]
      by_cases hrest : data.drop size = []
      · rw [hrest, chunk_list_nil]
        intro c hc
        exact absurd hc (List.not_mem_nil c)
      · rw [List.dropLast_cons_of_ne_nil (chunk_list_ne_nil size hs _ hrest)]
        intro c hc
        rcases List.mem_cons.mp hc with hc | hc
        · subst hc
          rw [List.length_take]
          have : size ≤ data.length := by
            by_contra hlt
            exact hrest (List.drop_eq_nil_of_le (by omega))
          omega
        · exact ih (data.drop size) (by rw [List.length_drop]; omega) c hc

/-- C1: for every list of files and every positive chunk size, chunk_list
partitions the ordered list into contiguous batches with no gaps or
overlaps (flattening the batches in order yields exactly the input list),
every batch except possibly the last has exactly the configured size, and
the last batch has size at most the configured size. -/
theorem C1_chunk_list_partitions {α : Type} (data : List α) (size : Nat) (hs : 0 < size) :
    (chunk_list data size).flatten = data ∧
    (∀ c ∈ (chunk_list data size).dropLast, c.length = size) ∧
    (∀ c ∈ chunk_list data size, c.length ≤ size) :=
  ⟨chunk_list_flatten_fuel size hs data.length data le_rfl,
   chunk_list_dropLast_fuel size hs data.length data le_rfl,
   chunk_list_length_le_fuel size hs data.length data le_rfl⟩

/-- C1 witness: the 7-element list with chunk size 3 from the end-to-end
scenario yields batches of sizes [3, 3, 1] in order. -/
theorem C1_chunk_list_partitions_witness :
    0 < 3 ∧
    ((chunk_list [10, 20, 30, 40, 50, 60, 70] 3).flatten = [10, 20, 30, 40, 50, 60, 70] ∧
      (∀ c ∈ (chunk_list [10, 20, 30, 40, 50, 60, 70] 3).dropLast, c.length = 3) ∧
      (∀ c ∈ chunk_list [10, 20, 30, 40, 50, 60, 70] 3, c.length ≤ 3)) ∧
    (chunk_list [10, 20, 30, 40, 50, 60, 70] 3).map List.length = [3, 3, 1] :=
  ⟨by decide, C1_chunk_list_partitions [10, 20, 30, 40, 50, 60, 70] 3 (by decide), by decide⟩

/-! ## File Selector: get_valid_audio_files (files.py lines 8-30)

The filesystem is modelled as a partial map from folder paths to
directory listings: none means the path does not exist, some entries is
the list produced by Path.iterdir.  Each entry carries its file name and
whether it is a regular file.
-/

/-- The extension allow-list, files.py line 5. -/
def VALID_EXTENSIONS : List String := [".mp3", ".m4a", ".wav", ".m4b"]

/-- One entry of a directory listing (Path.iterdir): a name plus whether
the entry is a regular file. -/
structure DirEntry where
  name : String
  isFile : Bool
deriving DecidableEq

/-- files.py line 27 filter: f.is_file() and f.suffix.lower() in
VALID_EXTENSIONS. -/
def isValidAudio (f : DirEntry) : Bool :=
  f.isFile && VALID_EXTENSIONS.contains (lowerStr (pathSuffix f.name))

/-- files.py line 29 sort key: entries are compared by name using the
Python string order. -/
def nameLe (a b : DirEntry) : Bool := strLe a.name.data b.name.data

/-- files.py lines 8-30: raise FileNotFoundError when the folder does not
exist, otherwise filter the directory listing to regular files with an
allowed extension (case-insensitively) and sort the result by file name.
The Python list.sort is a stable comparison sort; it is modelled by
mergeSort under the same key. -/
def get_valid_audio_files (fs : String → Option (List DirEntry)) (folder_path : String) :
    Except String (List DirEntry) :=
  match fs folder_path with
  | none => Except.error ("Folder not found: " ++ folder_path)
  | some entries => Except.ok ((entries.filter isValidAudio).mergeSort nameLe)

theorem strLe_total : ∀ a b, (strLe a b || strLe b a) = true := by
  intro a
  induction a with
  | nil => intro b; simp [strLe]
  | cons x xs ih =>
    intro b
    cases b with
    | nil => simp [strLe]
    | cons y ys =>
      by_cases hxy : x = y
      · subst hxy
        simpa [strLe] using ih ys
      · rcases lt_or_gt_of_ne hxy with h | h
        · simp [strLe, hxy, Ne.symm hxy, h]
        · simp [strLe, hxy, Ne.symm hxy, h]

theorem strLe_trans : ∀ a b c, strLe a b = true → strLe b c = true → strLe a c = true := by
  intro a
  induction a with
  | nil => intro b c _ _; simp [strLe]
  | cons x xs ih =>
    intro b c hab hbc
    cases b with
    | nil => simp [strLe] at hab
    | cons y ys =>
      cases c with
      | nil => simp [strLe] at hbc
      | cons z zs =>
        by_cases hxy : x = y
        · subst hxy
          by_cases hxz : x = z
          · subst hxz
            simp only [strLe, if_pos rfl] at hab hbc ⊢
            exact ih ys zs hab hbc
          · simp only [strLe, if_pos rfl] at hab
            simp only [strLe, if_neg hxz] at hbc ⊢
            exact hbc
        · by_cases hyz : y = z
          · subst hyz
            simp only [strLe, if_neg hxy] at hab ⊢
            exact hab
          · simp only [strLe, if_neg hxy] at hab
            simp only [strLe, if_neg hyz] at hbc
            have hxltz : x < z := lt_trans (of_decide_eq_true hab) (of_decide_eq_true hbc)
            simp only [strLe, if_neg (ne_of_lt hxltz)]
            exact decide_eq_true hxltz

theorem nameLe_trans : ∀ a b c : DirEntry, nameLe a b = true → nameLe b c = true →
    nameLe a c = true := fun _ _ _ hab hbc => strLe_trans _ _ _ hab hbc

theorem nameLe_total : ∀ a b : DirEntry, (nameLe a b || nameLe b a) = true :=
  fun a b => strLe_total a.name.data b.name.data

/-- C2: get_valid_audio_files fails with the not-found error exactly when
the folder path does not exist; otherwise it returns the entries that are
regular files with an allow-listed (case-insensitive) extension, sorted
by file name ascending, and a duplicate-free listing yields a
duplicate-free result.  The function is a pure function of the modelled
filesystem: it performs no effects. -/
theorem C2_get_valid_audio_files_spec (fs : String → Option (List DirEntry))
    (folder_path : String) :
    ((∃ e, get_valid_audio_files fs folder_path = Except.error e) ↔ fs folder_path = none) ∧
    (∀ entries, fs folder_path = some entries →
      ∃ l, get_valid_audio_files fs folder_path = Except.ok l ∧
        l.Perm (entries.filter isValidAudio) ∧
        l.Pairwise (fun a b => nameLe a b = true) ∧
        (entries.Nodup → l.Nodup)) := by
  unfold get_valid_audio_files
  cases hfs : fs folder_path with
  | none =>
    refine ⟨⟨fun _ => rfl, fun _ => ⟨_, rfl⟩⟩, fun entries hent => ?_⟩
    exact absurd hent (by simp)
  | some entries =>
    constructor
    · constructor
      · rintro ⟨e, he⟩
        exact absurd he (by simp)
      · intro h
        exact absurd h (by simp)
    · intro entries2 hent
      have : entries2 = entries := by
        have := hent
        simp at this
        exact this.symm
      subst this
      refine ⟨(entries2.filter isValidAudio).mergeSort nameLe, rfl,
        List.mergeSort_perm _ _, List.sorted_mergeSort nameLe_trans nameLe_total _, ?_⟩
      intro hnd
      exact ((List.mergeSort_perm (entries2.filter isValidAudio) nameLe).symm).nodup
        (hnd.filter isValidAudio)

/-- A tiny concrete filesystem for the C2 witness: one folder holding a
mix of allowed and disallowed entries. -/
def demoFS : String → Option (List DirEntry) :=
  fun p =>
    if p = "music" then
      some [⟨"b.mp3", true⟩, ⟨"a.MP3", true⟩, ⟨"notes.txt", true⟩, ⟨"sub.mp3", false⟩]
    else none

/-- C2 witness: the spec applied to the concrete filesystem demoFS. -/
theorem C2_get_valid_audio_files_spec_witness :
    ∃ l, get_valid_audio_files demoFS "music" = Except.ok l ∧
      l.Perm ([⟨"b.mp3", true⟩, ⟨"a.MP3", true⟩, ⟨"notes.txt", true⟩,
        (⟨"sub.mp3", false⟩ : DirEntry)].filter isValidAudio) ∧
      l.Pairwise (fun a b => nameLe a b = true) ∧
      ([⟨"b.mp3", true⟩, ⟨"a.MP3", true⟩, ⟨"notes.txt", true⟩,
        (⟨"sub.mp3", false⟩ : DirEntry)].Nodup → l.Nodup) :=
  (C2_get_valid_audio_files_spec demoFS "music").2
    [⟨"b.mp3", true⟩, ⟨"a.MP3", true⟩, ⟨"notes.txt", true⟩, ⟨"sub.mp3", false⟩] (by decide)

/-! ## Icon Randomizer selection step (workflow.py lines 161-180)

Within one randomization run, used_icon_srcs records the src attributes
already assigned.  For each dialog, the candidate options are the dialog
icons whose src is not recorded; when that set is empty the run clears
used_icon_srcs and takes every icon as a candidate again.  A dialog icon
is modelled by its src attribute, an Option String since get_attribute
can return None.
-/

/-- workflow.py line 166 membership test
(ico.get_attribute("src") not in used_icon_srcs): a missing attribute is
never a member of the recorded set of strings. -/
def srcMem : Option String → List String → Bool
  | some s, used => used.contains s
  | none, _ => false

/-- workflow.py lines 163-174: build valid_opts by excluding recorded
srcs; if valid_opts is empty, clear used_icon_srcs and treat all icons as
candidates again.  Returns the candidate pool together with the used-set
after the possible clear. -/
def selectionPool (available : List (Option String)) (used : List String) :
    List (Option String) × List String :=
  let validOpts := available.filter (fun src => !srcMem src used)
  if validOpts.isEmpty then (available, []) else (validOpts, used)

/-- workflow.py lines 176-178: after random.choice picks an element of
the pool, a truthy chosen src is added to the used-set (None and the
empty string are falsy in Python and are not recorded). -/
def recordUsed (chosen : Option String) (used : List String) : List String :=
  match chosen with
  | none => used
  | some s => if s.isEmpty then used else s :: used

/-- C3: the candidate pool is never empty when the dialog shows at least
one icon (forward progress, never deadlock); while the pool is not
exhausted, every candidate - hence whatever random.choice picks - has a
src that is not in the used-set (no repeats until exhaustion); when the
pool is exhausted the used-set is cleared and all icons become candidates
again; and every candidate comes from the dialog icons. -/
theorem C3_randomize_icons_selection (available : List (Option String)) (used : List String)
    (hav : available ≠ []) :
    (selectionPool available used).1 ≠ [] ∧
    ((available.filter (fun src => !srcMem src used)).isEmpty = false →
      ∀ chosen ∈ (selectionPool available used).1, srcMem chosen used = false) ∧
    ((available.filter (fun src => !srcMem src used)).isEmpty = true →
      selectionPool available used = (available, [])) ∧
    (∀ chosen ∈ (selectionPool available used).1, chosen ∈ available) := by
  by_cases hempty : (available.filter (fun src => !srcMem src used)).isEmpty = true
  · have hsel : selectionPool available used = (available, []) := by
      simp [selectionPool, hempty]
    rw [hsel]
    refine ⟨hav, ?_, fun _ => rfl, fun chosen hc => hc⟩
    intro hfalse
    rw [hempty] at hfalse
    exact absurd hfalse (by simp)
  · have hempty' : (available.filter (fun src => !srcMem src used)).isEmpty = false :=
      Bool.eq_false_iff.mpr hempty
    have hsel : selectionPool available used =
        (available.filter (fun src => !srcMem src used), used) := by
      simp [selectionPool, hempty']
    rw [hsel]
    refine ⟨?_, ?_, ?_, ?_⟩
    · intro hnil
      have hnil' : available.filter (fun src => !srcMem src used) = [] := hnil
      rw [hnil'] at hempty'
      simp at hempty'
    · intro _ chosen hc
      have := List.of_mem_filter hc
      simpa using this
    · intro h
      exact absurd h hempty
    · intro chosen hc
      exact List.mem_of_mem_filter hc

/-- C3 witness: one icon whose src is already recorded - the pool is
exhausted, the used-set is cleared, and the icon becomes a candidate
again, so selection stays possible. -/
theorem C3_randomize_icons_selection_witness :
    ([some "a"] : List (Option String)) ≠ [] ∧
    ((selectionPool [some "a"] ["a"]).1 ≠ [] ∧
      ((([some "a"] : List (Option String)).filter
          (fun src => !srcMem src ["a"])).isEmpty = false →
        ∀ chosen ∈ (selectionPool [some "a"] ["a"]).1, srcMem chosen ["a"] = false) ∧
      ((([some "a"] : List (Option String)).filter
          (fun src => !srcMem src ["a"])).isEmpty = true →
        selectionPool [some "a"] ["a"] = ([some "a"], [])) ∧
      (∀ chosen ∈ (selectionPool [some "a"] ["a"]).1, chosen ∈ [some "a"])) ∧
    selectionPool [some "a"] ["a"] = ([some "a"], []) :=
  ⟨by decide, C3_randomize_icons_selection [some "a"] ["a"] (by decide), by decide⟩

/-! ## Processing Monitor (workflow.py lines 40-102, yoto_uploader.py lines 70-101)

The poll loop checks the enabled state of the create control while the
elapsed time stays below the timeout, sleeping a fixed interval between
ticks; so tick k happens at elapsed time k * interval.  The enabled
states and the page text are modelled as functions of the tick.  The
heuristic scan of the page text only drives a status line; the embedding
records what it displays in a log separate from the final state.
-/

/-- The two terminal states of the monitor: DONE at the first enabled
tick, or TIMED_OUT when the timeout elapses first. -/
inductive MonitorResult where
  | DONE (tick : Nat)
  | TIMED_OUT
deriving DecidableEq

/-- Result of the monitor together with the heuristic status line
displayed while waiting (true at a tick when the page text mentioned one
of the heuristic substrings). -/
structure MonitorOutput where
  result : MonitorResult
  statusLog : List Bool
deriving DecidableEq

/-- workflow.py line 95: any(w in content for w in ("processing",
"transcoding", "analyzing")) on the lowercased page content. -/
def heuristicStatus (content : String) : Bool :=
  ["processing", "transcoding", "analyzing"].any
    (fun w => decide (List.IsInfix w.data (lowerStr content).data))

/-- workflow.py lines 55-100: while elapsed < timeout, test the create
control; when enabled stop with DONE, otherwise display the heuristic
status and sleep one interval.  When the loop condition fails the monitor
reports TIMED_OUT (wait_and_create raises TimeoutError there; the legacy
wait_for_processing prints a warning; both are the TIMED_OUT state). -/
def monitorLoop (enabled : Nat → Bool) (content : Nat → String)
    (interval timeout tick : Nat) : MonitorOutput :=
  if h : 0 < interval ∧ tick * interval < timeout then
    if enabled tick then ⟨MonitorResult.DONE tick, []⟩
    else
      let rest := monitorLoop enabled content interval timeout (tick + 1)
      ⟨rest.result, heuristicStatus (content tick) :: rest.statusLog⟩
  else ⟨MonitorResult.TIMED_OUT, []⟩
termination_by timeout - tick * interval
decreasing_by
  have h3 : (tick + 1) * interval = tick * interval + interval := by ring
  omega

theorem monitorLoop_done (enabled : Nat → Bool) (content : Nat → String)
    (interval timeout : Nat) (hi : 0 < interval) (k : Nat) (hk : k * interval < timeout)
    (hen : enabled k = true) (hfirst : ∀ j, j < k → enabled j = false) :
    ∀ tick, tick ≤ k →
      (monitorLoop enabled content interval timeout tick).result = MonitorResult.DONE k := by
  have main : ∀ d tick, tick ≤ k → k - tick ≤ d →
      (monitorLoop enabled content interval timeout tick).result = MonitorResult.DONE k := by
    intro d
    induction d with
    | zero =>
      intro tick htk hd
      have : tick = k := by omega
      subst this
      unfold monitorLoop
      rw [dif_pos ⟨hi, hk⟩, if_pos hen]
    | succ d ih =>
      intro tick htk hd
      by_cases heq : tick = k
      · subst heq
        unfold monitorLoop
        rw [dif_pos ⟨hi, hk⟩, if_pos hen]
      · have htlt : tick < k := by omega
        have hcond : tick * interval < timeout := by
          have : tick * interval ≤ k * interval := Nat.mul_le_mul_right interval (by omega)
          omega
        unfold monitorLoop
        rw [dif_pos ⟨hi, hcond⟩, if_neg (by rw [hfirst tick htlt]; simp)]
        exact ih (tick + 1) (by omega) (by omega)
  intro tick htk
  exact main (k - tick) tick htk le_rfl

theorem monitorLoop_timeout (enabled : Nat → Bool) (content : Nat → String)
    (interval timeout : Nat) (hall : ∀ k, k * interval < timeout → enabled k = false) :
    ∀ tick, (monitorLoop enabled content interval timeout tick).result =
      MonitorResult.TIMED_OUT := by
  have main : ∀ d tick, timeout - tick * interval ≤ d →
      (monitorLoop enabled content interval timeout tick).result =
        MonitorResult.TIMED_OUT := by
    intro d
    induction d with
    | zero =>
      intro tick hd
      unfold monitorLoop
      rw [dif_neg (by omega)]
    | succ d ih =>
      intro tick hd
      by_cases hcond : 0 < interval ∧ tick * interval < timeout
      · unfold monitorLoop
        rw [dif_pos hcond, if_neg (by rw [hall tick hcond.2]; simp)]
        apply ih (tick + 1)
        have : (tick + 1) * interval = tick * interval + interval := by ring
        omega
      · unfold monitorLoop
        rw [dif_neg hcond]
  intro tick
  exact main (timeout - tick * interval) tick le_rfl

theorem monitorLoop_content_irrelevant (enabled : Nat → Bool)
    (content content' : Nat → String) (interval timeout : Nat) :
    ∀ tick, (monitorLoop enabled content interval timeout tick).result =
      (monitorLoop enabled content' interval timeout tick).result := by
  have main : ∀ d tick, timeout - tick * interval ≤ d →
      (monitorLoop enabled content interval timeout tick).result =
        (monitorLoop enabled content' interval timeout tick).result := by
    intro d
    induction d with
    | zero =>
      intro tick hd
      unfold monitorLoop
      rw [dif_neg (by omega), dif_neg (by omega)]
    | succ d ih =>
      intro tick hd
      by_cases hcond : 0 < interval ∧ tick * interval < timeout
      · unfold monitorLoop
        rw [dif_pos hcond, dif_pos hcond]
        by_cases hen : enabled tick = true
        · rw [if_pos hen, if_pos hen]
        · rw [if_neg hen, if_neg hen]
          show (monitorLoop enabled content interval timeout (tick + 1)).result =
            (monitorLoop enabled content' interval timeout (tick + 1)).result
          apply ih (tick + 1)
          have : (tick + 1) * interval = tick * interval + interval := by ring
          omega
      · unfold monitorLoop
        rw [dif_neg hcond, dif_neg hcond]
  intro tick
  exact main (timeout - tick * interval) tick le_rfl

/-- C4: the processing monitor goes to DONE at the first polling tick at
which the create control is enabled, goes to TIMED_OUT when no tick
before the timeout reports enabled, and the heuristic page-text scan
(done for status display only) never affects which transition is taken -
two runs over page contents that differ arbitrarily produce the same
result.  The defaults of the sources are timeout 600 with interval 2
(workflow.py) or 5 (legacy); the statement covers every positive
interval and timeout, the defaults included. -/
theorem C4_processing_monitor_spec (enabled : Nat → Bool) (content content' : Nat → String)
    (interval timeout : Nat) (hi : 0 < interval) :
    (∀ k, k * interval < timeout → enabled k = true → (∀ j, j < k → enabled j = false) →
      (monitorLoop enabled content interval timeout 0).result = MonitorResult.DONE k) ∧
    ((∀ k, k * interval < timeout → enabled k = false) →
      (monitorLoop enabled content interval timeout 0).result = MonitorResult.TIMED_OUT) ∧
    ((monitorLoop enabled content interval timeout 0).result =
      (monitorLoop enabled content' interval timeout 0).result) :=
  ⟨fun k hk hen hfirst =>
      monitorLoop_done enabled content interval timeout hi k hk hen hfirst 0 (Nat.zero_le k),
   fun hall => monitorLoop_timeout enabled content interval timeout hall 0,
   monitorLoop_content_irrelevant enabled content content' interval timeout 0⟩

/-- C4 witness: with the create control enabled from tick 2 on and page
text that mentions transcoding, the monitor reports DONE at tick 2 under
the default workflow.py parameters; with the control never enabled it
reports TIMED_OUT; and replacing the page text by empty text changes no
result. -/
theorem C4_processing_monitor_spec_witness :
    (0 < 2 ∧
      (monitorLoop (fun k => decide (2 ≤ k)) (fun _ => "Transcoding audio") 2 600 0).result =
        MonitorResult.DONE 2) ∧
    ((monitorLoop (fun _ => false) (fun _ => "Transcoding audio") 2 600 0).result =
        MonitorResult.TIMED_OUT) ∧
    ((monitorLoop (fun k => decide (2 ≤ k)) (fun _ => "Transcoding audio") 2 600 0).result =
      (monitorLoop (fun k => decide (2 ≤ k)) (fun _ => "") 2 600 0).result) := by
  have h := C4_processing_monitor_spec (fun k => decide (2 ≤ k))
    (fun _ => "Transcoding audio") (fun _ => "") 2 600 (by decide)
  have h2 := C4_processing_monitor_spec (fun _ => false)
    (fun _ => "Transcoding audio") (fun _ => "") 2 600 (by decide)
  refine ⟨⟨by decide, h.1 2 (by decide) (by decide) ?_⟩, h2.2.1 (fun k _ => rfl), h.2.2⟩
  intro j hj
  interval_cases j <;> decide

/-! ## Playlist-record matching after Create (workflow.py lines 62-90)

The intercepted /content/mine response body is JSON that is either a bare
list of card records or an object with a "cards" field (possibly absent,
defaulted to the empty list by data.get("cards", [])).  A record carries
optional "title" and "cardId" fields; dict.get returns None for an
absent field, and c.get("title", "") defaults an absent title to the
empty string.
-/

/-- One playlist record of the /content/mine response. -/
structure Card where
  title : Option String
  cardId : Option String
deriving DecidableEq

/-- The parsed response body: a bare JSON list, or an object whose
"cards" field may be absent. -/
inductive ApiData where
  | list (cards : List Card)
  | obj (cards : Option (List Card))
deriving DecidableEq

/-- workflow.py line 74: cards = data if isinstance(data, list) else
data.get("cards", []). -/
def extractCards : ApiData → List Card
  | ApiData.list cs => cs
  | ApiData.obj cs => cs.getD []

/-- workflow.py line 78 matching predicate:
c.get("title", "").strip() == playlist_name.strip(). -/
def titleMatches (playlist_name : String) (c : Card) : Bool :=
  trimStr (c.title.getD "") == trimStr playlist_name

/-- workflow.py lines 77-80: next(...) returns the first record whose
trimmed title equals the trimmed playlist name, or None. -/
def findTargetCard (cards : List Card) (playlist_name : String) : Option Card :=
  cards.find? (titleMatches playlist_name)

/-- The generic library fallback URL, workflow.py line 90. -/
def genericLibraryUrl : String := "https://my.yotoplay.com/my-cards"

/-- The edit URL constructed from a card id, workflow.py line 86. -/
def editUrl (card_id : String) : String :=
  "https://my.yotoplay.com/card/" ++ card_id ++ "/edit"

/-- The reported URL together with whether the fallback warning was
printed. -/
structure CreateOutcome where
  url : String
  warned : Bool
deriving DecidableEq

/-- workflow.py lines 77-90: find the record matching the playlist name;
when it exists and its cardId is truthy (present and nonempty), return
the edit URL built from that id; otherwise print the warning and return
the generic library URL. -/
def resolveCreatedUrl (data : ApiData) (playlist_name : String) : CreateOutcome :=
  match findTargetCard (extractCards data) playlist_name with
  | some target =>
      match target.cardId with
      | some cid =>
          if cid.isEmpty then ⟨genericLibraryUrl, true⟩ else ⟨editUrl cid, false⟩
      | none => ⟨genericLibraryUrl, true⟩
  | none => ⟨genericLibraryUrl, true⟩

/-- C5: the matcher selects the first record whose trimmed title equals
the trimmed intended playlist name (exact, case-sensitive comparison);
when such a record is found and carries a cardId, the returned URL is the
edit URL encoding that cardId with no warning; when no title matches, the
generic library URL is returned and the warning is emitted.  This holds
for bare-list bodies and for wrapped object bodies alike. -/
theorem C5_playlist_record_matching (data : ApiData) (playlist_name : String) :
    (∀ c, findTargetCard (extractCards data) playlist_name = some c →
      trimStr (c.title.getD "") = trimStr playlist_name) ∧
    (∀ c cid, findTargetCard (extractCards data) playlist_name = some c →
      c.cardId = some cid → cid.isEmpty = false →
      resolveCreatedUrl data playlist_name = ⟨editUrl cid, false⟩) ∧
    (findTargetCard (extractCards data) playlist_name = none →
      resolveCreatedUrl data playlist_name = ⟨genericLibraryUrl, true⟩) := by
  refine ⟨?_, ?_, ?_⟩
  · intro c hc
    have := List.find?_some hc
    unfold titleMatches at this
    exact eq_of_beq this
  · intro c cid hc hcid hne
    simp [resolveCreatedUrl, hc, hcid, hne]
  · intro hnone
    simp [resolveCreatedUrl, hnone]

/-- C5 witness: the body from the spec scenario,
an object wrapping one card with title X and cardId 123, together with
intended name X, yields the edit URL for 123 (which contains 123 as a
substring); a body with no matching title yields the generic URL with the
warning. -/
theorem C5_playlist_record_matching_witness :
    (resolveCreatedUrl (ApiData.obj (some [⟨some "X", some "123"⟩])) "X" =
      ⟨editUrl "123", false⟩) ∧
    List.IsInfix "123".data (editUrl "123").data ∧
    (resolveCreatedUrl (ApiData.obj (some [⟨some "X", some "123"⟩])) "Y" =
      ⟨genericLibraryUrl, true⟩) :=
  ⟨(C5_playlist_record_matching (ApiData.obj (some [⟨some "X", some "123"⟩])) "X").2.1
      ⟨some "X", some "123"⟩ "123" (by decide) rfl (by decide),
   by decide,
   (C5_playlist_record_matching (ApiData.obj (some [⟨some "X", some "123"⟩])) "Y").2.2
      (by decide)⟩

/-- C10: when the record matching the trimmed playlist title exists but
its cardId field is absent or empty (falsy in Python), wait_and_create
does not return an edit URL: it falls through to the same generic
library URL and warning as the no-match case. -/
theorem C10_title_match_without_cardId (data : ApiData) (playlist_name : String) (c : Card)
    (hfind : findTargetCard (extractCards data) playlist_name = some c)
    (hcid : c.cardId = none ∨ c.cardId = some "") :
    resolveCreatedUrl data playlist_name = ⟨genericLibraryUrl, true⟩ := by
  rcases hcid with h | h
  · simp [resolveCreatedUrl, hfind, h]
  · simp [resolveCreatedUrl, hfind, h]
    decide

/-- C10 witness: a card whose title matches but whose cardId is absent
falls back to the generic library URL with the warning. -/
theorem C10_title_match_without_cardId_witness :
    resolveCreatedUrl (ApiData.obj (some [⟨some "X", none⟩])) "X" =
      ⟨genericLibraryUrl, true⟩ :=
  C10_title_match_without_cardId (ApiData.obj (some [⟨some "X", none⟩])) "X"
    ⟨some "X", none⟩ (by decide) (Or.inl rfl)

/-! ## Credential Provider (auth.py lines 10-25, yoto_uploader.py lines 11-21)

get_credentials reads two environment variables; for each, the Python
test `if not value` treats both an unset variable (None) and one set to
the empty string as missing and falls back to an interactive prompt.
The environment and the prompt replies are explicit inputs here.
-/

/-- Python truthiness of an os.getenv result: None and the empty string
are falsy. -/
def truthyEnv : Option String → Bool
  | none => false
  | some s => !s.isEmpty

/-- auth.py lines 17-25: take each credential from its environment
variable when truthy, otherwise from the interactive prompt. -/
def get_credentials (envEmail envPassword : Option String)
    (promptEmail promptPassword : String) : String × String :=
  ((if truthyEnv envEmail then envEmail.getD "" else promptEmail),
   (if truthyEnv envPassword then envPassword.getD "" else promptPassword))

/-- C9: an environment variable set to the empty string is treated
exactly like an absent one - the prompt supplies that value - and when
both variables are empty the returned pair is exactly the prompted pair,
so no component of the result is ever taken from an empty environment
variable. -/
theorem C9_get_credentials_empty_env (promptEmail promptPassword : String) :
    (∀ envPassword, get_credentials (some "") envPassword promptEmail promptPassword =
      get_credentials none envPassword promptEmail promptPassword) ∧
    (∀ envEmail, get_credentials envEmail (some "") promptEmail promptPassword =
      get_credentials envEmail none promptEmail promptPassword) ∧
    get_credentials (some "") (some "") promptEmail promptPassword =
      (promptEmail, promptPassword) := by
  have hempty : "".isEmpty = true := rfl
  refine ⟨fun envPassword => ?_, fun envEmail => ?_, ?_⟩ <;>
    simp [get_credentials, truthyEnv, hempty]

/-! ## Icon Randomizer per-icon failure handling (workflow.py lines 135-195)

One iteration of the icon loop observes: whether the page URL still
contains /edit at the top of the iteration (the safety check), whether
one of the update steps (click trigger, wait for dialog, pick icon, wait
for close) raises, and whether the dialog is still visible when the
recovery handler checks page.is_visible.
-/

/-- The environment one icon-loop iteration observes. -/
structure IconStepEnv where
  urlHasEdit : Bool
  stepFails : Bool
  dialogVisibleAfterFail : Bool
deriving DecidableEq

/-- What one iteration did: whether the recovery handler pressed Escape,
whether the failure was logged, and whether this track received an
icon. -/
structure IconStepResult where
  escaped : Bool
  logged : Bool
  assigned : Bool
deriving DecidableEq

/-- workflow.py lines 142-195: a successful iteration assigns the icon;
a failing one logs the failure and presses Escape exactly when the
dialog is still visible (lines 188-195, the recovery handler), leaving
the icon unchanged either way. -/
def icon_step (env : IconStepEnv) : IconStepResult :=
  if env.stepFails then
    ⟨env.dialogVisibleAfterFail, true, false⟩
  else
    ⟨false, false, true⟩

/-- workflow.py lines 135-195: iterate over the icon indices in order;
the loop breaks when the URL safety check fails (line 136-138) and
otherwise runs every iteration, failing ones included. -/
def randomize_icons_loop (envs : List IconStepEnv) : List IconStepResult :=
  match envs with
  | [] => []
  | env :: rest =>
      if env.urlHasEdit then icon_step env :: randomize_icons_loop rest
      else []

/-- C8: while the page stays on the editor, a per-icon failure is
non-fatal: every index is still processed (one result per icon, so the
loop proceeds to the next index after a failure), Escape is pressed
exactly when the step failed and the dialog is still visible (nothing
further is done when no dialog is visible), and a failed step logs the
failure and leaves that track's icon unchanged. -/
theorem C8_icon_failure_nonfatal (envs : List IconStepEnv)
    (hurl : ∀ env ∈ envs, env.urlHasEdit = true) :
    randomize_icons_loop envs = envs.map icon_step ∧
    (randomize_icons_loop envs).length = envs.length ∧
    (∀ env : IconStepEnv, (icon_step env).escaped = true ↔
      env.stepFails = true ∧ env.dialogVisibleAfterFail = true) ∧
    (∀ env : IconStepEnv, env.stepFails = true →
      (icon_step env).logged = true ∧ (icon_step env).assigned = false) := by
  have hmap : randomize_icons_loop envs = envs.map icon_step := by
    induction envs with
    | nil => rfl
    | cons env rest ih =>
      unfold randomize_icons_loop
      rw [if_pos (hurl env (List.mem_cons_self env rest))]
      rw [ih (fun e he => hurl e (List.mem_cons_of_mem env he))]
      rfl
  refine ⟨hmap, by rw [hmap, List.length_map], ?_, ?_⟩
  · rintro ⟨u, sf, dv⟩
    cases sf <;> cases dv <;> simp [icon_step]
  · rintro ⟨u, sf, dv⟩ hf
    cases dv <;> simp_all [icon_step]

/-- C8 witness: three icons, the second failing with the dialog stuck
open and the third failing with no dialog visible; all three indices are
processed, Escape is pressed only for the second, and the two failed
tracks keep their icons unchanged. -/
theorem C8_icon_failure_nonfatal_witness :
    randomize_icons_loop [⟨true, false, false⟩, ⟨true, true, true⟩, ⟨true, true, false⟩] =
      [⟨true, false, false⟩, ⟨true, true, true⟩,
        (⟨true, true, false⟩ : IconStepEnv)].map icon_step ∧
    (randomize_icons_loop
      [⟨true, false, false⟩, ⟨true, true, true⟩, ⟨true, true, false⟩]).length = 3 ∧
    (∀ env : IconStepEnv, (icon_step env).escaped = true ↔
      env.stepFails = true ∧ env.dialogVisibleAfterFail = true) ∧
    (∀ env : IconStepEnv, env.stepFails = true →
      (icon_step env).logged = true ∧ (icon_step env).assigned = false) :=
  C8_icon_failure_nonfatal
    [⟨true, false, false⟩, ⟨true, true, true⟩, ⟨true, true, false⟩] (by decide)

/-! ## Login timeout handling (workflow.py lines 201-264, yoto_uploader.py lines 233-297)

run_upload_mode in workflow.py receives only the page and the
credentials; the browser mode (headless or visible) is fixed earlier by
run_playwright when launching the browser and is never observed by the
mode body.  On a login timeout (the 60 s wait_for_url raising), workflow
run_upload_mode prints a warning and returns (lines 235-239); the legacy
script prints a warning and blocks on input() before continuing (lines
267-272), and its main always launches a visible browser (line 345).
The trace records the externally visible actions of the mode body in
order; interactive prompts before login are included for completeness.
-/

/-- Externally visible actions of the upload mode. -/
inductive UAction where
  | promptPlaylistName
  | promptFolder
  | printFolderError
  | printNoFiles
  | gotoLogin
  | fillCredentials
  | submitLogin
  | waitLoginUrl
  | warnLoginTimeout
  | blockOnPrompt
  | gotoEditor
  | fillPlaylistName
  | uploadChunks (n : Nat)
  | waitAndCreate
  | waitForProcessing
  | printManualSave
  | printResult
deriving DecidableEq

/-- workflow.py lines 201-264 (run_upload_mode): the headless flag is
the mode of the browser the page belongs to (run_playwright line 313);
the body never reads it.  On login timeout the function prints the
CAPTCHA warning and returns; otherwise it proceeds to the editor, the
chunk uploads and wait_and_create. -/
def run_upload_mode_trace (_headless : Bool) (folderExists : Bool) (numFiles : Nat)
    (loginOk : Bool) (numChunks : Nat) : List UAction :=
  [UAction.promptPlaylistName, UAction.promptFolder] ++
  (if folderExists = false then [UAction.printFolderError]
   else if numFiles = 0 then [UAction.printNoFiles]
   else
    [UAction.gotoLogin, UAction.fillCredentials, UAction.submitLogin, UAction.waitLoginUrl] ++
    (if loginOk = false then [UAction.warnLoginTimeout]
     else [UAction.gotoEditor, UAction.fillPlaylistName, UAction.uploadChunks numChunks,
       UAction.waitAndCreate, UAction.printResult]))

/-- yoto_uploader.py lines 233-297 (legacy run_upload_mode): on login
timeout it prints the warning and blocks on input() for manual
intervention, then continues with the editor and upload stage either
way; the run ends with manual-save instructions and a final blocking
prompt. -/
def legacy_run_upload_mode_trace (folderExists : Bool) (numFiles : Nat) (loginOk : Bool)
    (numChunks : Nat) : List UAction :=
  [UAction.promptPlaylistName, UAction.promptFolder] ++
  (if folderExists = false then [UAction.printFolderError]
   else if numFiles = 0 then [UAction.printNoFiles]
   else
    [UAction.gotoLogin, UAction.fillCredentials, UAction.submitLogin, UAction.waitLoginUrl] ++
    (if loginOk = false then [UAction.warnLoginTimeout, UAction.blockOnPrompt] else []) ++
    [UAction.gotoEditor, UAction.fillPlaylistName, UAction.uploadChunks numChunks,
      UAction.waitForProcessing, UAction.printManualSave, UAction.blockOnPrompt])

/-- C6 counterexample: in VISIBLE mode (headless = false), a login
timeout does not pause the packaged workflow on a blocking prompt - the
mode aborts without ever reaching the editor, exactly as it does in
headless mode - refuting the claim that the behaviour depends on the
browser mode. -/
theorem C6_counterexample_visible_mode_no_pause :
    UAction.blockOnPrompt ∉ run_upload_mode_trace false true 7 false 3 ∧
    UAction.gotoEditor ∉ run_upload_mode_trace false true 7 false 3 ∧
    UAction.warnLoginTimeout ∈ run_upload_mode_trace false true 7 false 3 ∧
    run_upload_mode_trace false true 7 false 3 = run_upload_mode_trace true true 7 false 3 := by
  refine ⟨by decide, by decide, by decide, rfl⟩

/-- C6 amended: on a login timeout the packaged workflow warns and
aborts the mode before the editor and upload stage in BOTH browser modes
(its behaviour is independent of the mode; in particular a headless run
aborts without launching the upload stage, as the spec scenario says);
only the legacy script - which always launches a visible browser -
pauses on a blocking prompt and then continues. -/
theorem C6_login_timeout_behavior (headless folderExists : Bool) (numFiles numChunks : Nat) :
    (∀ loginOk,
      run_upload_mode_trace headless folderExists numFiles loginOk numChunks =
        run_upload_mode_trace (!headless) folderExists numFiles loginOk numChunks) ∧
    (UAction.warnLoginTimeout ∈ run_upload_mode_trace headless true (numFiles + 1) false numChunks ∧
     UAction.blockOnPrompt ∉ run_upload_mode_trace headless true (numFiles + 1) false numChunks ∧
     UAction.gotoEditor ∉ run_upload_mode_trace headless true (numFiles + 1) false numChunks ∧
     UAction.uploadChunks numChunks ∉
       run_upload_mode_trace headless true (numFiles + 1) false numChunks) ∧
    (UAction.warnLoginTimeout ∈ legacy_run_upload_mode_trace true (numFiles + 1) false numChunks ∧
     UAction.blockOnPrompt ∈ legacy_run_upload_mode_trace true (numFiles + 1) false numChunks ∧
     UAction.gotoEditor ∈ legacy_run_upload_mode_trace true (numFiles + 1) false numChunks) := by
  refine ⟨fun _ => rfl, ⟨?_, ?_, ?_, ?_⟩, ⟨?_, ?_, ?_⟩⟩ <;>
    simp [run_upload_mode_trace, legacy_run_upload_mode_trace]

/-! ## Entry-point cleanup (workflow.py lines 301-323, yoto_uploader.py lines 334-360)

run_playwright opens the Playwright driver in a with-statement, launches
the browser, and runs the selected mode inside try/finally with
browser.close() in the finally block, so the close and the driver stop
run whether the mode returns or raises, and an exception still
propagates afterwards.  The legacy main reaches its explicit
browser.close() only on the normal path, but the with-statement exit
(which stops the driver and thereby the browsers it launched) and the
top-level except handler run on the raising path as well.
-/

/-- Actions of the two entry points. -/
inductive RAction where
  | getCredentials
  | launchBrowser
  | newContext
  | newPage
  | runMode
  | browserClose
  | playwrightStop
  | printError
deriving DecidableEq

/-- workflow.py lines 301-323: the pair is the action trace and whether
the mode exception propagates out of run_playwright.  browser.close()
sits in a finally block, so the trace is the same on both paths. -/
def run_playwright_trace (modeRaises : Bool) : List RAction × Bool :=
  ([RAction.getCredentials, RAction.launchBrowser, RAction.newContext, RAction.newPage,
    RAction.runMode, RAction.browserClose, RAction.playwrightStop], modeRaises)

/-- yoto_uploader.py lines 334-360: on the raising path the explicit
browser.close() of line 355 is skipped, but the with-statement exit
stops the driver and the except handler prints the error. -/
def legacy_main_trace (modeRaises : Bool) : List RAction :=
  [RAction.getCredentials, RAction.launchBrowser, RAction.newContext, RAction.newPage,
    RAction.runMode] ++
  (if modeRaises then [RAction.playwrightStop, RAction.printError]
   else [RAction.browserClose, RAction.playwrightStop])

/-- C7: on every exit path of both entry points - the mode returning
normally or raising - the browser session and its resources are released
before the entry point returns or propagates: run_playwright always runs
browser.close() and the driver stop after the mode (and still propagates
the mode exception), and the legacy main always runs the driver stop,
which closes the browsers the driver launched. -/
theorem C7_session_released_on_all_paths :
    (∀ modeRaises,
      run_playwright_trace modeRaises =
        ([RAction.getCredentials, RAction.launchBrowser, RAction.newContext, RAction.newPage,
          RAction.runMode, RAction.browserClose, RAction.playwrightStop], modeRaises) ∧
      RAction.browserClose ∈ (run_playwright_trace modeRaises).1 ∧
      RAction.playwrightStop ∈ (run_playwright_trace modeRaises).1) ∧
    (∀ modeRaises, RAction.playwrightStop ∈ legacy_main_trace modeRaises) := by
  constructor
  · intro modeRaises
    cases modeRaises <;> exact ⟨rfl, by decide, by decide⟩
  · intro modeRaises
    cases modeRaises <;> decide
